import Mathlib

/-!
Shallow embedding of the mvis2list frame-reassembly engine.

The Go sources contain two reconstruction strategies for the same contract:
a pre-sized in-memory buffer with offset bookkeeping (`mvis.writeBlock` /
`prepare` in main.go) and a streaming file writer with an md5 accumulator
(`mvis.Write` / `dumpFiles` in the unnamed source file).  Both are embedded
here.  Bytes are modelled as `Nat` (values < 256), frames as `List Nat` of
length `LineSize`, and Go's uint16 arithmetic is made explicit with `% 2^16`
and `% 2^15` where it matters.
-/

set_option maxRecDepth 100000

namespace Mvis2list

/-- Frame tag marking an idle/filler frame (Go constant `MilFlag`). -/
def MilFlag : Nat := 0xFFFE

/-- Frame tag marking a new-file sentinel (Go constant `FileFlag`). -/
def FileFlag : Nat := 0xFFFF

/-- Size in bytes of one archive frame (Go constant `LineSize`). -/
def LineSize : Nat := 64

/-- Upper bound of valid sequence counters, 32 << 10 (Go `counterLimit`). -/
def counterLimit : Nat := 32768

/-- Mask for counter arithmetic, `counterLimit - 1` (Go `counterMask`). -/
def counterMask : Nat := counterLimit - 1

/-- Big-endian uint16 read of the first two bytes of a frame
(Go `binary.BigEndian.Uint16(bs)`). -/
def be16 (bs : List Nat) : Nat :=
  256 * bs.getD 0 0 + bs.getD 1 0

/-- Big-endian uint32 read of bytes 2..5 of a frame
(Go `binary.BigEndian.Uint32(body[2:])`). -/
def be32at2 (bs : List Nat) : Nat :=
  16777216 * bs.getD 2 0 + 65536 * bs.getD 3 0 + 256 * bs.getD 4 0 + bs.getD 5 0

/-- Trailing-null trim (Go `bytes.TrimRight(bs, "\x00")`). -/
def trimRightNulls (l : List Nat) : List Nat :=
  (l.reverse.dropWhile (fun b => b == 0)).reverse

/-- Null trim on both ends (Go `bytes.Trim(body[6:], "\x00")`),
used to decode the declared file name of a new-file sentinel. -/
def trimNulls (l : List Nat) : List Nat :=
  ((l.dropWhile (fun b => b == 0)).reverse.dropWhile (fun b => b == 0)).reverse

/-- Declared name of a new-file sentinel frame: bytes after the tag and the
size field, null-trimmed (Go `bytes.Trim(body[6:], "\x00")`). -/
def frameName (bs : List Nat) : List Nat :=
  trimNulls (bs.drop 6)

/-- The modulo-difference of two counters as computed by the Go code:
`(s - last) & counterMask` on uint16 operands, i.e. subtraction mod 2^16
followed by masking to 15 bits, which equals `(s - last) mod 32768` over
the integers. -/
def cdiff (s last : Nat) : Nat :=
  (s % counterLimit + (counterLimit - last % counterLimit)) % counterLimit

/-- One data-frame step of the diagnostic pass `listBlocks`: given the
previous counter and the running missing count, apply
`if diff := (s - prev) & counterMask; diff != s && diff > 1 { missing += diff-1 }`
and advance `prev` to `s`.  Returns the new `(prev, missing)`. -/
def listStep (prev missing s : Nat) : Nat × Nat :=
  let diff := cdiff s prev
  if diff ≠ s ∧ 1 < diff then (s, missing + (diff - 1)) else (s, missing)

/-- Failure outcomes of the Go assembler code: a `fmt.Errorf` format error
carrying the offending counter, or a runtime panic (nil dereference or
slice out of range). -/
inductive GoErr where
  | formatError (s : Nat)
  | panic
  deriving DecidableEq, Repr

/-- Assembler state of the buffered strategy (struct `mvis` in main.go):
name, declared size, block and byte counters, the pre-sized payload buffer,
the last-seen counter and the write offset. -/
structure Mvis where
  Name : List Nat
  Size : Nat
  Blocks : Nat
  Bytes : Nat
  Payload : List Nat
  last : Nat
  offset : Nat
  deriving DecidableEq, Repr

/-- Semantics of Go's `copy(buf[off:], src)`: overwrite
`min (src.length) (buf.length - off)` bytes of `buf` starting at `off`,
leaving the length unchanged (assuming `off ≤ buf.length`). -/
def writeAt (buf : List Nat) (off : Nat) (src : List Nat) : List Nat :=
  buf.take off ++ src.take (buf.length - off) ++ buf.drop (off + src.length)

/-- The write offset after the gap-skip branch of `writeBlock`:
`if diff := (s - m.last) & counterMask; s != diff && diff > 1 { m.offset += (diff-1)*(LineSize-2) }`. -/
def gapOffset (m : Mvis) (bs : List Nat) : Nat :=
  let s := be16 bs
  let diff := cdiff s m.last
  if s ≠ diff ∧ 1 < diff then m.offset + (diff - 1) * (LineSize - 2) else m.offset

/-- The buffered assembler's `(*mvis).writeBlock` from main.go: reject
counters ≥ `counterLimit`, treat a repeated counter as a no-op, skip the
offset over `diff-1` missing blocks, then `copy` the 62 payload bytes into
the pre-sized buffer at the current offset and bump the counters.  Slicing
`m.Payload[m.offset:]` with an offset beyond the buffer's length panics in
Go, modelled by `GoErr.panic`. -/
def writeBlock (m : Mvis) (bs : List Nat) : Except GoErr Mvis :=
  let s := be16 bs
  if s ≥ counterLimit then .error (.formatError s)
  else if s = m.last then .ok m
  else
    let off := gapOffset m bs
    if m.Payload.length < off then .error .panic
    else
      let src := bs.drop 2
      let n := min src.length (m.Payload.length - off)
      .ok { m with
        Payload := writeAt m.Payload off src
        last := s
        Blocks := m.Blocks + 1
        Bytes := m.Bytes + n
        offset := off + n }

/-- A fresh buffered assembler as built by `prepare` on a new-file sentinel:
the payload is pre-allocated to the declared size and pre-filled with the
configured fill byte (`make` plus the fill loop; a zero filler leaves the
`make`-zeroed buffer, which coincides with filling by zero). -/
def newMvis (name : List Nat) (size : Nat) (filler : Nat) : Mvis :=
  { Name := name
    Size := size
    Blocks := 0
    Bytes := 0
    Payload := List.replicate size filler
    last := 0
    offset := 0 }

/-- Lookup of a logical file by name in the `buffer` map of `prepare`,
modelled as an association list. -/
def findB (buffer : List (List Nat × Mvis)) (name : List Nat) : Option Mvis :=
  match buffer with
  | [] => none
  | (k, m) :: rest => if k = name then some m else findB rest name

/-- In-place update of a logical file in the `buffer` map of `prepare`
(the Go code mutates through the `*mvis` pointer stored in the map). -/
def updateB (buffer : List (List Nat × Mvis)) (name : List Nat) (m' : Mvis) :
    List (List Nat × Mvis) :=
  match buffer with
  | [] => []
  | (k, m) :: rest => if k = name then (k, m') :: rest else (k, m) :: updateB rest name m'

/-- The frame loop of `prepare` in main.go: a new-file sentinel inserts a
fresh assembler only if the declared name is not yet present and makes that
name current; a data frame with no assembler for the current name is dropped
(`if !ok { continue }`); otherwise it is forwarded to `writeBlock`, whose
error aborts the whole loop. -/
def prepareGo (filler : Nat) (buffer : List (List Nat × Mvis)) (name : List Nat) :
    List (List Nat) → Except GoErr (List (List Nat × Mvis))
  | [] => .ok buffer
  | bs :: rest =>
    if be16 bs = FileFlag then
      let size := be32at2 bs
      let nm := frameName bs
      let buffer' :=
        if (findB buffer nm).isSome then buffer
        else buffer ++ [(nm, newMvis nm size filler)]
      prepareGo filler buffer' nm rest
    else
      match findB buffer name with
      | none => prepareGo filler buffer name rest
      | some m =>
        match writeBlock m bs with
        | .error e => .error e
        | .ok m' => prepareGo filler (updateB buffer name m') name rest

/-- `prepare` from main.go run on a frame stream (idle frames are already
filtered out by `fileReader.Read`): start with an empty buffer and an empty
current name. -/
def prepareFrames (frames : List (List Nat)) (filler : Nat) :
    Except GoErr (List (List Nat × Mvis)) :=
  prepareGo filler [] [] frames

/-- Build a new-file sentinel frame: tag 0xFFFF, big-endian declared size,
name padded with nulls to fill the 64-byte frame. -/
def mkFileFrame (size : Nat) (name : List Nat) : List Nat :=
  [0xFF, 0xFF, size / 16777216 % 256, size / 65536 % 256, size / 256 % 256, size % 256] ++
    name ++ List.replicate (58 - name.length) 0

/-- Build a data frame: big-endian counter followed by the 62 payload bytes. -/
def mkDataFrame (ctr : Nat) (payload : List Nat) : List Nat :=
  [ctr / 256 % 256, ctr % 256] ++ payload

/-- Assembler state of the streaming strategy (struct `mvis` in the unnamed
source file): counters plus the output file's content and position and the
stream of bytes fed to the md5 digest through the `io.MultiWriter`. -/
structure MvisS where
  Name : List Nat
  Size : Nat
  Blocks : Nat
  Bytes : Nat
  last : Nat
  fileContent : List Nat
  filePos : Nat
  digestInput : List Nat
  deriving DecidableEq, Repr

/-- Semantics of `os.File.Truncate(n)`: shrink the file to `n` bytes, or
extend it with zero bytes. -/
def truncateTo (content : List Nat) (n : Nat) : List Nat :=
  if n ≤ content.length then content.take n
  else content ++ List.replicate (n - content.length) 0

/-- Semantics of a file write at the current position: zero-extend up to the
position if it lies beyond the end, then overwrite. -/
def fileWrite (content : List Nat) (pos : Nat) (src : List Nat) : List Nat :=
  let c := if pos ≤ content.length then content
           else content ++ List.replicate (pos - content.length) 0
  c.take pos ++ src ++ c.drop (pos + src.length)

/-- A fresh streaming assembler as built by `New` in the unnamed source:
`os.Create` gives an empty file which `Truncate(size)` zero-extends. -/
def newMvisS (name : List Nat) (size : Nat) : MvisS :=
  { Name := name
    Size := size
    Blocks := 0
    Bytes := 0
    last := 0
    fileContent := List.replicate size 0
    filePos := 0
    digestInput := [] }

/-- The streaming assembler's `(*mvis).Write` from the unnamed source file:
reject counters ≥ `counterLimit`, return `(0, nil)` on a repeated counter,
on a gap truncate the file to `(diff-1)*62` bytes and seek forward by the
same amount, then write the trailing-null-trimmed payload through the
`io.MultiWriter` (file plus md5 digest) and bump the counters; on success
return `len(bs)`.  I/O errors of `Truncate`, `Seek` and the writer are not
modelled (they do not occur in the in-memory file model). -/
def WriteS (m : MvisS) (bs : List Nat) : Except GoErr (MvisS × Nat) :=
  let s := be16 bs
  if s ≥ counterLimit then .error (.formatError s)
  else if s = m.last then .ok (m, 0)
  else
    let diff := cdiff s m.last
    let m1 :=
      if s ≠ diff ∧ 1 < diff then
        let off := (diff - 1) * (LineSize - 2)
        { m with fileContent := truncateTo m.fileContent off, filePos := m.filePos + off }
      else m
    let chunk := trimRightNulls (bs.drop 2)
    .ok ({ m1 with
      last := s
      fileContent := fileWrite m1.fileContent m1.filePos chunk
      filePos := m1.filePos + chunk.length
      digestInput := m1.digestInput ++ chunk
      Blocks := m1.Blocks + 1
      Bytes := m1.Bytes + chunk.length }, bs.length)

/-- The frame loop of `dumpFiles` in the unnamed source file: a new-file
sentinel closes the current assembler (collected in `acc`) and opens a new
one; a data frame is passed to `curr.Write` even when `curr` is nil, in
which case Go returns the format error for counters ≥ `counterLimit`
(reached before any field access) and otherwise panics dereferencing the
nil receiver at `m.last`.  A `Write` error is returned, aborting the loop. -/
def dumpGo (acc : List MvisS) (curr : Option MvisS) :
    List (List Nat) → Except GoErr (List MvisS)
  | [] => .ok (acc ++ curr.toList)
  | bs :: rest =>
    if be16 bs = FileFlag then
      dumpGo (acc ++ curr.toList) (some (newMvisS (frameName bs) (be32at2 bs))) rest
    else
      match curr with
      | none =>
        if be16 bs ≥ counterLimit then .error (.formatError (be16 bs))
        else .error .panic
      | some m =>
        match WriteS m bs with
        | .error e => .error e
        | .ok (m', _) => dumpGo acc (some m') rest

/-- `dumpFiles` from the unnamed source file run on a frame stream (idle
frames are already filtered out by `fileReader.Read`), returning the list of
assemblers finalized during the run. -/
def dumpFrames (frames : List (List Nat)) : Except GoErr (List MvisS) :=
  dumpGo [] none frames

/-- Go byte-wise lexicographic string order used by `sort.Strings`,
restricted to the `Char`-as-byte path model. -/
def strLe : List Char → List Char → Bool
  | [], _ => true
  | _ :: _, [] => false
  | a :: as, b :: bs => if a = b then strLe as bs else decide (a.val < b.val)

/-- Insertion step of the model of `sort.Strings`. -/
def insertSorted (x : List Char) : List (List Char) → List (List Char)
  | [] => [x]
  | y :: ys => if strLe x y then x :: y :: ys else y :: insertSorted x ys

/-- Model of `sort.Strings`: lexicographic sort of the path list. -/
def sortPaths (ps : List (List Char)) : List (List Char) :=
  ps.foldr insertSorted []

/-- Is `q` a leading segment of `p`?  (Go `strings.HasPrefix(p, q)`.) -/
def leadsIn : (q p : List Char) → Bool
  | [], _ => true
  | _ :: _, [] => false
  | a :: as, b :: bs => a = b && leadsIn as bs

/-- Is `q` a trailing segment of `p`?  (Go `strings.HasSuffix(p, q)`.) -/
def endsIn (q p : List Char) : Bool :=
  leadsIn q.reverse p.reverse

/-- Index of the last underscore of a path (Go `strings.LastIndex(f, "_")`),
or `none` when the path has no underscore. -/
def lastUnderscore (f : List Char) : Option Nat :=
  if '_' ∈ f then some (f.length - 1 - f.reverse.indexOf '_') else none

/-- The `.bad` suffix skipped by `NewReader` unless `-keep` is set. -/
def dotBad : List Char := ['.', 'b', 'a', 'd']

/-- Inner loop of `NewReader`'s selection: scan forward from index `j`
looking for the first path whose UPI prefix (everything before its last
underscore) is not a leading segment of `p`; report that break index, or
`none` when the scan reaches the end of the list, or a format error for a
path without an underscore.  `fuel` bounds the recursion (the Go loop runs
at most `ps.length` times). -/
def innerScan (p : List Char) (ps : List (List Char)) : Nat → Nat → Except (List Char) (Option Nat)
  | _, 0 => .ok none
  | j, fuel + 1 =>
    if h : j < ps.length then
      let f := ps.get ⟨j, h⟩
      match lastUnderscore f with
      | none => .error ['i', 'n', 'v', 'a', 'l', 'i', 'd']
      | some ix =>
        if leadsIn (f.take ix) p then innerScan p ps (j + 1) fuel
        else .ok (some j)
    else .ok none

/-- Outer loop of `NewReader`'s selection over the sorted paths: skip `.bad`
paths unless `keep` is set; otherwise run the inner scan from `i+1`; on a
break at `j`, append `ps[j-1]` (the last path of the prefix run) and resume
the outer loop at `j` (`xs, i = append(xs, ps[j-1]), j-1` followed by the
loop's `i++`); when the inner scan completes without a break, nothing is
appended.  `fuel` bounds the recursion. -/
def selectGo (keep : Bool) (ps : List (List Char)) :
    Nat → Nat → List (List Char) → Except (List Char) (List (List Char))
  | _, 0, xs => .ok xs
  | i, fuel + 1, xs =>
    if i < ps.length then
      let p := ps.getD i []
      if ¬keep ∧ endsIn dotBad p then selectGo keep ps (i + 1) fuel xs
      else
        match innerScan p ps (i + 1) ps.length with
        | .error e => .error e
        | .ok none => selectGo keep ps (i + 1) fuel xs
        | .ok (some j) => selectGo keep ps j fuel (xs ++ [ps.getD (j - 1) []])
    else .ok xs

/-- Path selection of `NewReader` (main.go and the unnamed source file):
sort, run the dedup loop, and fail with `no valid files provided` when the
result is empty. -/
def newReaderSelect (ps : List (List Char)) (keep : Bool) : Except (List Char) (List (List Char)) :=
  let sorted := sortPaths ps
  match selectGo keep sorted 0 (sorted.length + 1) [] with
  | .error e => .error e
  | .ok xs =>
    if xs.length = 0 then .error ['n', 'o', ' ', 'v', 'a', 'l', 'i', 'd'] else .ok xs

/-- The filesystem effect of `os.Create`: the named file exists afterwards
(its previous content, if any, is truncated). -/
def createFile (fs : List (List Char)) (f : List Char) : List (List Char) :=
  if f ∈ fs then fs else f :: fs

/-- The filesystem effect of `os.Remove`: the named file is gone. -/
def removeFile (fs : List (List Char)) (f : List Char) : List (List Char) :=
  fs.filter (fun g => g ≠ f)

/-- Control flow of `(*mvis).WriteMetadata` after marshalling the
descriptor: create the metadata file, run the XML encoder on it, and on an
encoder error close and remove the file before returning the error.  The
encoder's outcome is the Boolean parameter `encodeOk` (XML serialization
itself is out of scope); the result pairs the success flag with the set of
files existing afterwards. -/
def writeMetadataFs (fs : List (List Char)) (f : List Char) (encodeOk : Bool) :
    Bool × List (List Char) :=
  let fs1 := createFile fs f
  if encodeOk then (true, fs1) else (false, removeFile fs1 f)

/-! ### Supporting lemmas -/

theorem take_append_len {α : Type} (A B : List α) : (A ++ B).take A.length = A := by
  induction A with
  | nil => simp
  | cons a as ih => simp [ih]

theorem take_drop_comm {α : Type} (l : List α) (a k : Nat) :
    (l.drop a).take k = (l.take (a + k)).drop a := by
  have := List.drop_take (a + k) a l
  simpa [Nat.add_sub_cancel_left] using this.symm

theorem cdiff_self (s : Nat) : cdiff s s = 0 := by
  have h : s % counterLimit ≤ counterLimit :=
    le_of_lt (Nat.mod_lt _ (by decide))
  simp [cdiff, Nat.add_sub_cancel' h]

theorem writeAt_length (buf src : List Nat) (off : Nat) (h : off ≤ buf.length) :
    (writeAt buf off src).length = buf.length := by
  simp only [writeAt, List.length_append, List.length_take, List.length_drop]
  omega

theorem writeAt_take (buf src : List Nat) (off : Nat) (h : off ≤ buf.length) :
    (writeAt buf off src).take off = buf.take off := by
  have hA : (buf.take off).length = off := by
    simp [List.length_take, Nat.min_eq_left h]
  have hT := take_append_len (buf.take off)
    (src.take (buf.length - off) ++ buf.drop (off + src.length))
  rw [hA] at hT
  unfold writeAt
  rw [List.append_assoc]
  exact hT

theorem gapOffset_of_gap (m : Mvis) (bs : List Nat) (d : Nat)
    (hd : d = cdiff (be16 bs) m.last) (h1 : 1 < d) (hds : d ≠ be16 bs) :
    gapOffset m bs = m.offset + (d - 1) * (LineSize - 2) := by
  simp only [gapOffset]
  rw [← hd, if_pos ⟨fun h => hds h.symm, h1⟩]

theorem gapOffset_of_no_gap (m : Mvis) (bs : List Nat)
    (h : ¬(be16 bs ≠ cdiff (be16 bs) m.last ∧ 1 < cdiff (be16 bs) m.last)) :
    gapOffset m bs = m.offset := by
  simp only [gapOffset]
  rw [if_neg h]

theorem writeBlock_ok_of_valid (m : Mvis) (bs : List Nat)
    (hs : be16 bs < counterLimit) (hne : be16 bs ≠ m.last)
    (hoff : gapOffset m bs ≤ m.Payload.length) :
    writeBlock m bs = .ok { m with
      Payload := writeAt m.Payload (gapOffset m bs) (bs.drop 2)
      last := be16 bs
      Blocks := m.Blocks + 1
      Bytes := m.Bytes + min (bs.drop 2).length (m.Payload.length - gapOffset m bs)
      offset := gapOffset m bs + min (bs.drop 2).length (m.Payload.length - gapOffset m bs) } := by
  simp only [writeBlock]
  rw [if_neg (by omega : ¬ be16 bs ≥ counterLimit), if_neg hne,
    if_neg (by omega : ¬ m.Payload.length < gapOffset m bs)]

theorem writeBlock_formatError (m : Mvis) (bs : List Nat)
    (hs : counterLimit ≤ be16 bs) :
    writeBlock m bs = .error (.formatError (be16 bs)) := by
  simp only [writeBlock]
  rw [if_pos hs]

theorem WriteS_ok_of_valid (m : MvisS) (bs : List Nat)
    (hs : be16 bs < counterLimit) (hne : be16 bs ≠ m.last) :
    ∃ m', WriteS m bs = .ok (m', bs.length) ∧
      m'.Blocks = m.Blocks + 1 ∧
      m'.Bytes = m.Bytes + (trimRightNulls (bs.drop 2)).length ∧
      m'.digestInput = m.digestInput ++ trimRightNulls (bs.drop 2) ∧
      m'.last = be16 bs := by
  simp only [WriteS]
  rw [if_neg (by omega : ¬ be16 bs ≥ counterLimit), if_neg hne]
  split
  · exact ⟨_, rfl, rfl, rfl, rfl, rfl⟩
  · exact ⟨_, rfl, rfl, rfl, rfl, rfl⟩

theorem writeBlock_preserves_last_lt (m : Mvis) (bs : List Nat) (m' : Mvis)
    (hm : m.last < counterLimit) (h : writeBlock m bs = .ok m') :
    m'.last < counterLimit := by
  by_cases hs : be16 bs ≥ counterLimit
  · rw [writeBlock_formatError m bs hs] at h
    cases h
  · simp only [writeBlock] at h
    rw [if_neg hs] at h
    by_cases hdup : be16 bs = m.last
    · rw [if_pos hdup] at h
      cases h
      exact hm
    · rw [if_neg hdup] at h
      by_cases hover : m.Payload.length < gapOffset m bs
      · rw [if_pos hover] at h
        cases h
      · rw [if_neg hover] at h
        cases h
        simpa using by omega

/-! ### Concrete scenarios -/

/-- The C1 end-to-end stream: a new-file sentinel declaring name `X`
(byte 88) and size 124, then data frames with counters 0 and 1 carrying
62 bytes of `A` (65) and 62 bytes of `B` (66). -/
def scenarioFrames : List (List Nat) :=
  [mkFileFrame 124 [88],
   mkDataFrame 0 (List.replicate 62 65),
   mkDataFrame 1 (List.replicate 62 66)]

/-- What the buffered reconstruction actually produces on `scenarioFrames`:
one block, 62 bytes, the `B` payload at offset 0 followed by fill bytes. -/
def scenarioResult : Mvis :=
  { Name := [88]
    Size := 124
    Blocks := 1
    Bytes := 62
    Payload := List.replicate 62 66 ++ List.replicate 62 32
    last := 1
    offset := 62 }

/-- What the streaming reconstruction actually produces on `scenarioFrames`:
one block, 62 bytes, digest fed only with the `B` payload. -/
def scenarioResultS : MvisS :=
  { Name := [88]
    Size := 124
    Blocks := 1
    Bytes := 62
    last := 1
    fileContent := List.replicate 62 66 ++ List.replicate 62 0
    filePos := 62
    digestInput := List.replicate 62 66 }

/-! ### Claims -/

/-- C1: the end-to-end scenario (sentinel `X`/124, data frames 0 and 1 with
62 `A` and 62 `B` bytes) is claimed to yield a 124-byte output of the two
payloads, block count 2, byte count 124 and a checksum over those 124
bytes.  Evaluating both reconstruction passes shows otherwise: because the
fresh assembler's `last` counter starts at 0, the counter-0 frame is
swallowed by the duplicate check (`s == m.last`), so the code produces
block count 1, byte count 62, and an output holding only the `B` payload
followed by fill bytes (the streaming digest is fed only the `B` bytes). -/
theorem c1_end_to_end_eval :
    prepareFrames scenarioFrames 0x20 = .ok [([88], scenarioResult)] ∧
    dumpFrames scenarioFrames = .ok [scenarioResultS] ∧
    scenarioResult.Blocks = 1 ∧ scenarioResult.Bytes = 62 ∧
    scenarioResult.Payload = List.replicate 62 66 ++ List.replicate 62 32 ∧
    scenarioResultS.digestInput = List.replicate 62 66 :=
  ⟨rfl, rfl, rfl, rfl, rfl, rfl⟩

/-- C2 counterexample: a data frame with counter 5 arriving when the
last-seen counter is 0 has modulo difference `d = 5` with `1 < 5 < 32768`,
so the claim demands 4 missing blocks and a 4·62-byte gap skip; but the
`diff != s` guard makes `listBlocks` add nothing to the missing count and
`writeBlock` skip no bytes (`gapOffset` stays at the current offset 0). -/
theorem c2_counterexample :
    cdiff 5 0 = 5 ∧
    (listStep 0 0 5).2 = 0 ∧
    (listStep 0 0 5).2 ≠ 5 - 1 ∧
    gapOffset (newMvis [88] 124 0x20) (mkDataFrame 5 (List.replicate 62 65)) = 0 :=
  ⟨by decide, by decide, by decide, by decide⟩

/-- C2 (amended): for a data frame whose counter `s` gives modulo
difference `d` with `1 < d < 32768` *and* `d ≠ s` (the `diff != s` guard,
i.e. the last-seen counter is not ≡ 0 mod 32768), and whose gap and payload
fit inside the pre-sized buffer, the diagnostic pass adds exactly `d-1` to
the missing count, and the buffered write skips `(d-1)·62` bytes — leaving
that stretch of the output exactly as pre-filled — before writing the
62-byte payload. -/
theorem c2_gap_missing (prev missing s d : Nat) (m : Mvis) (bs : List Nat)
    (hd : d = cdiff s prev) (h1 : 1 < d) (hds : d ≠ s)
    (hs : s < counterLimit)
    (hlast : m.last = prev) (hbs : be16 bs = s) (hlen : bs.length = LineSize)
    (hoff : m.offset + (d - 1) * (LineSize - 2) + (LineSize - 2) ≤ m.Payload.length) :
    (listStep prev missing s).2 = missing + (d - 1) ∧
    ∃ m', writeBlock m bs = .ok m' ∧
      m'.Bytes = m.Bytes + (LineSize - 2) ∧
      m'.offset = m.offset + (d - 1) * (LineSize - 2) + (LineSize - 2) ∧
      (m'.Payload.drop m.offset).take ((d - 1) * (LineSize - 2)) =
        (m.Payload.drop m.offset).take ((d - 1) * (LineSize - 2)) := by
  have hgo : gapOffset m bs = m.offset + (d - 1) * (LineSize - 2) :=
    gapOffset_of_gap m bs d (by rw [hbs, hlast]; exact hd) h1 (by rw [hbs]; exact hds)
  have hne : be16 bs ≠ m.last := by
    intro h
    rw [hbs, hlast] at h
    rw [← h, cdiff_self] at hd
    omega
  have hoff' : gapOffset m bs ≤ m.Payload.length := by rw [hgo]; omega
  have hwb := writeBlock_ok_of_valid m bs (by rw [hbs]; exact hs) hne hoff'
  have hsrc : (bs.drop 2).length = LineSize - 2 := by
    simp [List.length_drop, hlen]
  have hmin : min (bs.drop 2).length (m.Payload.length - gapOffset m bs) = LineSize - 2 := by
    rw [hsrc, hgo]
    exact Nat.min_eq_left (by omega)
  refine ⟨?_, _, hwb, ?_, ?_, ?_⟩
  · have hc : cdiff s prev = d := hd.symm
    simp only [listStep]
    rw [hc, if_pos ⟨hds, h1⟩]
  · show m.Bytes + min (bs.drop 2).length (m.Payload.length - gapOffset m bs) =
      m.Bytes + (LineSize - 2)
    rw [hmin]
  · show gapOffset m bs + min (bs.drop 2).length (m.Payload.length - gapOffset m bs) =
      m.offset + (d - 1) * (LineSize - 2) + (LineSize - 2)
    rw [hmin, hgo]
  · show ((writeAt m.Payload (gapOffset m bs) (bs.drop 2)).drop m.offset).take
        ((d - 1) * (LineSize - 2)) =
      (m.Payload.drop m.offset).take ((d - 1) * (LineSize - 2))
    rw [take_drop_comm, take_drop_comm, ← hgo, writeAt_take m.Payload (bs.drop 2) _ hoff']

/-- Buffered assembler state for the C2 witness: a 248-byte file whose
counter-1 block has been written (offset 62, `last = 1`). -/
def w2m : Mvis :=
  { Name := [88]
    Size := 248
    Blocks := 1
    Bytes := 62
    Payload := List.replicate 248 32
    last := 1
    offset := 62 }

/-- C2 witness: instantiating the amended gap property at counter 4 after
counter 1 (`d = 3`, two missing blocks). -/
theorem c2_gap_missing_witness :
    (listStep 1 0 4).2 = 0 + (3 - 1) ∧
    ∃ m', writeBlock w2m (mkDataFrame 4 (List.replicate 62 65)) = .ok m' ∧
      m'.Bytes = w2m.Bytes + (LineSize - 2) ∧
      m'.offset = w2m.offset + (3 - 1) * (LineSize - 2) + (LineSize - 2) ∧
      (m'.Payload.drop w2m.offset).take ((3 - 1) * (LineSize - 2)) =
        (w2m.Payload.drop w2m.offset).take ((3 - 1) * (LineSize - 2)) :=
  c2_gap_missing 1 0 4 3 w2m (mkDataFrame 4 (List.replicate 62 65))
    (by decide) (by decide) (by decide) (by decide) rfl rfl (by decide) (by decide)

/-- C3: a data frame whose counter equals the assembler's last-seen counter
is an idempotent no-op in both strategies: the buffered `writeBlock` returns
success with the state untouched, and the streaming `Write` returns success
with zero bytes consumed and the state (counters, file, digest) untouched.
The hypothesis `last < counterLimit` holds for every reachable assembler
state (`writeBlock_preserves_last_lt` and the initial value 0). -/
theorem c3_duplicate_noop (m : Mvis) (ms : MvisS) (bs bs2 : List Nat)
    (h1 : be16 bs = m.last) (h2 : m.last < counterLimit)
    (h3 : be16 bs2 = ms.last) (h4 : ms.last < counterLimit) :
    writeBlock m bs = .ok m ∧ WriteS ms bs2 = .ok (ms, 0) := by
  constructor
  · simp only [writeBlock]
    rw [h1, if_neg (by omega : ¬ m.last ≥ counterLimit), if_pos rfl]
  · simp only [WriteS]
    rw [h3, if_neg (by omega : ¬ ms.last ≥ counterLimit), if_pos rfl]

/-- C3 witness: a counter-0 frame against fresh assemblers (whose `last`
is 0) is a no-op in both strategies. -/
theorem c3_duplicate_noop_witness :
    writeBlock (newMvis [88] 124 0x20) (mkDataFrame 0 (List.replicate 62 65)) =
      .ok (newMvis [88] 124 0x20) ∧
    WriteS (newMvisS [88] 124) (mkDataFrame 0 (List.replicate 62 65)) =
      .ok (newMvisS [88] 124, 0) :=
  c3_duplicate_noop (newMvis [88] 124 0x20) (newMvisS [88] 124)
    (mkDataFrame 0 (List.replicate 62 65)) (mkDataFrame 0 (List.replicate 62 65))
    rfl (by decide) rfl (by decide)

/-- C4: a counter-0 data frame arriving when the last-seen counter is 32767
has modulo difference 1 and is treated as the next expected frame: the
diagnostic pass adds nothing to the missing count, and the buffered write
applies no gap skip — the offset advances by exactly the 62 payload bytes
and the block count by one. -/
theorem c4_wraparound (missing : Nat) (m : Mvis) (bs : List Nat)
    (hl : m.last = 32767) (hb : be16 bs = 0) (hlen : bs.length = LineSize)
    (hoff : m.offset + (LineSize - 2) ≤ m.Payload.length) :
    cdiff 0 32767 = 1 ∧
    listStep 32767 missing 0 = (0, missing) ∧
    ∃ m', writeBlock m bs = .ok m' ∧
      m'.offset = m.offset + (LineSize - 2) ∧ m'.Blocks = m.Blocks + 1 := by
  have hc : cdiff 0 32767 = 1 := by decide
  refine ⟨hc, ?_, ?_⟩
  · simp only [listStep]
    rw [hc, if_neg (by decide : ¬((1:Nat) ≠ 0 ∧ 1 < 1))]
  · have hgo : gapOffset m bs = m.offset :=
      gapOffset_of_no_gap m bs (by rw [hb, hl]; decide)
    have hne : be16 bs ≠ m.last := by rw [hb, hl]; decide
    have hs : be16 bs < counterLimit := by rw [hb]; decide
    have hoff' : gapOffset m bs ≤ m.Payload.length := by rw [hgo]; omega
    have hwb := writeBlock_ok_of_valid m bs hs hne hoff'
    have hsrc : (bs.drop 2).length = LineSize - 2 := by
      simp [List.length_drop, hlen]
    have hmin : min (bs.drop 2).length (m.Payload.length - gapOffset m bs) = LineSize - 2 := by
      rw [hsrc, hgo]
      exact Nat.min_eq_left (by omega)
    refine ⟨_, hwb, ?_, rfl⟩
    show gapOffset m bs + min (bs.drop 2).length (m.Payload.length - gapOffset m bs) =
      m.offset + (LineSize - 2)
    rw [hmin, hgo]

/-- Buffered assembler state for the C4 witness: a 124-byte fresh buffer
whose last-seen counter sits at the wraparound boundary 32767. -/
def w4m : Mvis :=
  { Name := [88]
    Size := 124
    Blocks := 7
    Bytes := 434
    Payload := List.replicate 124 32
    last := 32767
    offset := 0 }

/-- C4 witness: the wraparound property instantiated at the concrete state
`w4m` and a counter-0 frame. -/
theorem c4_wraparound_witness :
    cdiff 0 32767 = 1 ∧
    listStep 32767 9 0 = (0, 9) ∧
    ∃ m', writeBlock w4m (mkDataFrame 0 (List.replicate 62 65)) = .ok m' ∧
      m'.offset = w4m.offset + (LineSize - 2) ∧ m'.Blocks = w4m.Blocks + 1 :=
  c4_wraparound 9 w4m (mkDataFrame 0 (List.replicate 62 65)) rfl rfl (by decide) (by decide)

/-- The C5 input paths `a_001, a_002, a_003`, all sharing UPI prefix `a`. -/
def c5paths : List (List Char) :=
  ["a_001".toList, "a_002".toList, "a_003".toList]

/-- A two-run variant of the C5 input: prefix run `a` followed by `b_001`. -/
def c5runs : List (List Char) :=
  ["a_001".toList, "a_002".toList, "b_001".toList]

/-- C5: the grouper is claimed to retain the lexicographically last path of
every prefix run — in particular `a_003` from `a_001, a_002, a_003`.
Evaluating the `NewReader` selection shows the loop only appends a run's
last path when a path with a different prefix follows it, so the final run
is never retained: on the single-run input the result is empty and
`NewReader` fails with `no valid files provided`; on the two-run input only
`a_002` survives and the final run's `b_001` is silently dropped. -/
theorem c5_dedup_eval :
    newReaderSelect c5paths false = .error ("no valid".toList) ∧
    newReaderSelect c5runs false = .ok ["a_002".toList] :=
  ⟨rfl, rfl⟩

/-- The C6 input stream: sentinel `X`/124, then a data frame whose tag
0x8000 decodes to the out-of-range counter 32768, then sentinel `Y`/62 and
a valid counter-1 frame. -/
def c6frames : List (List Nat) :=
  [mkFileFrame 124 [88],
   [0x80, 0x00] ++ List.replicate 62 7,
   mkFileFrame 62 [89],
   mkDataFrame 1 (List.replicate 62 66)]

/-- C6 counterexample: a counter ≥ 32768 does produce the FormatError, but
the error is not fail-soft — both reconstruction passes return it to their
caller (which `log.Fatalln`s), so the whole run aborts and the following
sentinel `Y` is never processed, contrary to the claim that only the
current logical file is dropped. -/
theorem c6_counterexample :
    prepareFrames c6frames 0x20 = .error (.formatError 32768) ∧
    dumpFrames c6frames = .error (.formatError 32768) :=
  ⟨rfl, rfl⟩

/-- C6 (amended): a data frame whose counter is ≥ 32768 makes the
assembler's write fail with the FormatError carrying that counter, and the
reconstruction loop propagates the error immediately — aborting the entire
run regardless of the remaining frames — rather than dropping only the
active logical file. -/
theorem c6_counter_fatal (filler : Nat) (buffer : List (List Nat × Mvis))
    (name : List Nat) (m : Mvis) (bs : List Nat) (rest : List (List Nat))
    (hfind : findB buffer name = some m)
    (hs : counterLimit ≤ be16 bs) (hnf : be16 bs ≠ FileFlag) :
    writeBlock m bs = .error (.formatError (be16 bs)) ∧
    prepareGo filler buffer name (bs :: rest) = .error (.formatError (be16 bs)) := by
  have hwb := writeBlock_formatError m bs hs
  refine ⟨hwb, ?_⟩
  simp only [prepareGo, if_neg hnf, hfind, hwb]

/-- C6 witness: the fatal propagation instantiated on a one-file buffer, a
0x8000-tagged frame and a nonempty remainder of the stream. -/
theorem c6_counter_fatal_witness :
    writeBlock (newMvis [88] 124 0x20) ([0x80, 0x00] ++ List.replicate 62 7) =
      .error (.formatError 32768) ∧
    prepareGo 0x20 [([88], newMvis [88] 124 0x20)] [88]
        (([0x80, 0x00] ++ List.replicate 62 7) :: [mkFileFrame 62 [89]]) =
      .error (.formatError 32768) :=
  c6_counter_fatal 0x20 [([88], newMvis [88] 124 0x20)] [88] (newMvis [88] 124 0x20)
    ([0x80, 0x00] ++ List.replicate 62 7) [mkFileFrame 62 [89]]
    (by decide) (by decide) (by decide)

/-- The C7 input stream: a counter-0 data frame arriving before any
sentinel, then sentinel `Y`/62 and a counter-1 frame. -/
def c7frames : List (List Nat) :=
  [mkDataFrame 0 (List.replicate 62 65),
   mkFileFrame 62 [89],
   mkDataFrame 1 (List.replicate 62 66)]

/-- What `prepare` produces for the logical file `Y` of `c7frames`. -/
def c7resultY : Mvis :=
  { Name := [89]
    Size := 62
    Blocks := 1
    Bytes := 62
    Payload := List.replicate 62 66
    last := 1
    offset := 62 }

/-- C7: a data frame arriving while no logical file is active is claimed to
be dropped with processing continuing.  main.go's `prepare` does exactly
that (`if !ok { continue }`): the stray frame affects nothing and the later
sentinel `Y` is reconstructed normally.  But the unnamed source's
`dumpFiles` calls `curr.Write` on the nil assembler, which dereferences
`m.last` and panics (for an in-range counter), crashing the run instead. -/
theorem c7_idle_data_frame_eval :
    prepareFrames c7frames 0x20 = .ok [([89], c7resultY)] ∧
    dumpFrames c7frames = .error .panic :=
  ⟨rfl, rfl⟩

/-- Buffered assembler state for the C8 counterexample: a full 62-byte
file whose single block has been written (offset = buffer length). -/
def c8m : Mvis :=
  { Name := [88]
    Size := 62
    Blocks := 1
    Bytes := 62
    Payload := List.replicate 62 65
    last := 1
    offset := 62 }

/-- What `writeBlock` produces on `c8m` for a counter-2 frame: the frame is
accepted (block count 2) but `copy` writes 0 of the 62 payload bytes. -/
def c8res : Mvis :=
  { Name := [88]
    Size := 62
    Blocks := 2
    Bytes := 62
    Payload := List.replicate 62 65
    last := 2
    offset := 62 }

/-- C8 counterexample: a counter-2 data frame accepted by the buffered
assembler when the write offset already sits at the end of the pre-sized
buffer writes 0 bytes, not the claimed "exactly the fixed 62-byte payload
length": `copy` copies `min(62, capacity)` bytes and the byte count grows
by 0. -/
theorem c8_counterexample :
    writeBlock c8m (mkDataFrame 2 (List.replicate 62 67)) = .ok c8res ∧
    c8res.Bytes - c8m.Bytes = 0 ∧
    (0 : Nat) ≠ LineSize - 2 :=
  ⟨rfl, rfl, by decide⟩

/-- C8 (amended): for every data frame accepted by an assembler the payload
is the 62 bytes after the 2-byte tag; the streaming writer (text behavior)
trims the payload's trailing run of null bytes and writes, digests and
counts the trimmed bytes; the buffered writer (binary behavior) writes
`min(62, remaining buffer capacity)` raw payload bytes — exactly 62
whenever the write fits in the pre-sized buffer; in both, the block count
increments by 1 and the byte count by the bytes actually written. -/
theorem c8_payload_write (m : Mvis) (ms : MvisS) (bs bs2 : List Nat)
    (hs : be16 bs < counterLimit) (hne : be16 bs ≠ m.last)
    (hlen : bs.length = LineSize)
    (hoff : gapOffset m bs ≤ m.Payload.length)
    (hs2 : be16 bs2 < counterLimit) (hne2 : be16 bs2 ≠ ms.last) :
    (∃ m', writeBlock m bs = .ok m' ∧
      m'.Payload = writeAt m.Payload (gapOffset m bs) (bs.drop 2) ∧
      m'.Blocks = m.Blocks + 1 ∧
      m'.Bytes = m.Bytes + min (LineSize - 2) (m.Payload.length - gapOffset m bs) ∧
      (LineSize - 2 ≤ m.Payload.length - gapOffset m bs →
        m'.Bytes = m.Bytes + (LineSize - 2))) ∧
    (∃ ms' n, WriteS ms bs2 = .ok (ms', n) ∧
      ms'.Blocks = ms.Blocks + 1 ∧
      ms'.digestInput = ms.digestInput ++ trimRightNulls (bs2.drop 2) ∧
      ms'.Bytes = ms.Bytes + (trimRightNulls (bs2.drop 2)).length) := by
  constructor
  · have hwb := writeBlock_ok_of_valid m bs hs hne hoff
    have hsrc : (bs.drop 2).length = LineSize - 2 := by
      simp [List.length_drop, hlen]
    refine ⟨_, hwb, rfl, rfl, ?_, ?_⟩
    · show m.Bytes + min (bs.drop 2).length (m.Payload.length - gapOffset m bs) =
        m.Bytes + min (LineSize - 2) (m.Payload.length - gapOffset m bs)
      rw [hsrc]
    · intro hfit
      show m.Bytes + min (bs.drop 2).length (m.Payload.length - gapOffset m bs) =
        m.Bytes + (LineSize - 2)
      rw [hsrc, Nat.min_eq_left hfit]
  · obtain ⟨ms', hws, hb, hby, hdg, _⟩ := WriteS_ok_of_valid ms bs2 hs2 hne2
    exact ⟨ms', bs2.length, hws, hb, hdg, hby⟩

/-- C8 witness: the amended write property instantiated on a fresh
124-byte buffered assembler with a raw counter-1 payload of `A` bytes, and
a fresh streaming assembler with a counter-1 payload of 30 `B` bytes padded
by 32 trailing nulls (which the text-mode trim removes). -/
theorem c8_payload_write_witness :
    (∃ m', writeBlock (newMvis [88] 124 0x20) (mkDataFrame 1 (List.replicate 62 65)) = .ok m' ∧
      m'.Payload = writeAt (newMvis [88] 124 0x20).Payload
        (gapOffset (newMvis [88] 124 0x20) (mkDataFrame 1 (List.replicate 62 65)))
        ((mkDataFrame 1 (List.replicate 62 65)).drop 2) ∧
      m'.Blocks = (newMvis [88] 124 0x20).Blocks + 1 ∧
      m'.Bytes = (newMvis [88] 124 0x20).Bytes + min (LineSize - 2)
        ((newMvis [88] 124 0x20).Payload.length -
          gapOffset (newMvis [88] 124 0x20) (mkDataFrame 1 (List.replicate 62 65))) ∧
      (LineSize - 2 ≤ (newMvis [88] 124 0x20).Payload.length -
          gapOffset (newMvis [88] 124 0x20) (mkDataFrame 1 (List.replicate 62 65)) →
        m'.Bytes = (newMvis [88] 124 0x20).Bytes + (LineSize - 2))) ∧
    (∃ ms' n, WriteS (newMvisS [88] 124)
        (mkDataFrame 1 (List.replicate 30 66 ++ List.replicate 32 0)) = .ok (ms', n) ∧
      ms'.Blocks = (newMvisS [88] 124).Blocks + 1 ∧
      ms'.digestInput = (newMvisS [88] 124).digestInput ++
        trimRightNulls ((mkDataFrame 1 (List.replicate 30 66 ++ List.replicate 32 0)).drop 2) ∧
      ms'.Bytes = (newMvisS [88] 124).Bytes +
        (trimRightNulls ((mkDataFrame 1 (List.replicate 30 66 ++ List.replicate 32 0)).drop 2)).length) :=
  c8_payload_write (newMvis [88] 124 0x20) (newMvisS [88] 124)
    (mkDataFrame 1 (List.replicate 62 65))
    (mkDataFrame 1 (List.replicate 30 66 ++ List.replicate 32 0))
    (by decide) (by decide) (by decide) (by decide) (by decide) (by decide)

/-- C9: a new-file sentinel whose declared name is already present in the
buffer leaves the existing logical file's state entirely unchanged (the
`if !ok` guard skips creation, whatever size the new sentinel declares) and
merely makes that name current, so subsequent data frames are routed into
the pre-existing logical file and merge with its content. -/
theorem c9_repeated_sentinel (filler : Nat) (buffer : List (List Nat × Mvis))
    (name0 : List Nat) (bs : List Nat) (rest : List (List Nat))
    (hfile : be16 bs = FileFlag)
    (hex : (findB buffer (frameName bs)).isSome = true) :
    prepareGo filler buffer name0 (bs :: rest) =
      prepareGo filler buffer (frameName bs) rest ∧
    prepareGo filler buffer name0 [bs] = .ok buffer := by
  constructor
  · simp only [prepareGo, if_pos hfile, hex, if_pos]
  · simp only [prepareGo, if_pos hfile, hex, if_pos]

/-- Buffer for the C9 witness: the logical file `X` already exists with a
written block. -/
def w9buf : List (List Nat × Mvis) := [([88], w2m)]

/-- C9 witness: a second sentinel for `X` — even declaring a different size
999 — leaves the buffer untouched and routes the continuation under `X`. -/
theorem c9_repeated_sentinel_witness :
    prepareGo 0x20 w9buf [] (mkFileFrame 999 [88] :: [mkDataFrame 2 (List.replicate 62 66)]) =
      prepareGo 0x20 w9buf (frameName (mkFileFrame 999 [88]))
        [mkDataFrame 2 (List.replicate 62 66)] ∧
    prepareGo 0x20 w9buf [] [mkFileFrame 999 [88]] = .ok w9buf :=
  c9_repeated_sentinel 0x20 w9buf [] (mkFileFrame 999 [88])
    [mkDataFrame 2 (List.replicate 62 66)] (by decide) (by decide)

/-- C10: when the XML encoder fails inside `WriteMetadata`, the metadata
file just created is closed and removed before the error is returned, so no
partial metadata file remains: the call reports failure and the file is
absent from the resulting filesystem. -/
theorem c10_metadata_removed_on_encode_error (fs : List (List Char)) (f : List Char) :
    (writeMetadataFs fs f false).1 = false ∧ f ∉ (writeMetadataFs fs f false).2 := by
  refine ⟨rfl, ?_⟩
  simp [writeMetadataFs, removeFile, List.mem_filter]

end Mvis2list
